import Mathlib

/-!
Verification development for the rectangle-detection pipeline of the
`elyron` repository (`src/js/utils.js`, `src/js/detector.js`).

The JavaScript source is embedded shallowly:
* pixel buffers (`Uint8ClampedArray`) become `List ℕ` indexed by `y*width+x`,
  with `getD _ 0` mirroring the falsy `undefined` of an out-of-range read;
* points are `ℤ × ℤ` (JS number coordinates are integers throughout the
  tracer and simplifier);
* JS float arithmetic is idealised as exact arithmetic: `ℚ` where the source
  only adds/multiplies/divides, `ℝ` where it takes `Math.sqrt`/`Math.exp`;
* the in-place `Array.prototype.sort` of `filterOverlappingRectangles` is
  modelled by returning the post-call contents of the input array alongside
  the returned filtered list.
-/

/-- JS `Math.round` on exact rationals: round half toward positive infinity. -/
def jsRoundQ (q : ℚ) : ℤ := ⌊q + 1/2⌋

/-- JS `Math.round` on reals (used after real-valued arithmetic). -/
noncomputable def jsRoundR (x : ℝ) : ℤ := ⌊x + 1/2⌋

/-- Storing an integer into a `Uint8ClampedArray` clamps it into `[0, 255]`. -/
def clampByte (v : ℤ) : ℕ := (min 255 (max 0 v)).toNat

/-- The formatted rectangle object built by
`RectangleDetector.createRectangleObject` (detector.js:583) and consumed by
`GeometryUtils.filterOverlappingRectangles`.  The source field
`aspectRatio` is named `aspect` here; `center` is the `{x, y}` pair. -/
structure Detection where
  id : String
  x : ℤ
  y : ℤ
  width : ℤ
  height : ℤ
  area : ℤ
  aspect : ℚ
  confidence : ℝ
  center : ℤ × ℤ

instance : Inhabited Detection := ⟨⟨"", 0, 0, 0, 0, 0, 0, 0, (0, 0)⟩⟩

/-- `GeometryUtils.calculateOverlapRatio` (utils.js:175): intersection area
divided by the smaller rectangle's area.  The division is only reached when
the intersection is nonempty, which forces both areas to be positive, so the
`ℚ` division agrees with the JS float division on every reachable input. -/
def calculateOverlap (r1 r2 : Detection) : ℚ :=
  let x1 := max r1.x r2.x
  let y1 := max r1.y r2.y
  let x2 := min (r1.x + r1.width) (r2.x + r2.width)
  let y2 := min (r1.y + r1.height) (r2.y + r2.height)
  if x2 ≤ x1 ∨ y2 ≤ y1 then 0
  else ((x2 - x1) * (y2 - y1) : ℤ) / ((min (r1.width * r1.height) (r2.width * r2.height) : ℤ) : ℚ)

/-- One insertion step of the stable descending-by-confidence sort.
`rectangles.sort((a, b) => (b.confidence || 0) - (a.confidence || 0))`
(utils.js:213) is a stable sort whose result is descending in `confidence`
with ties kept in original order; insertion sort with this insertion step
computes exactly that list.  (`confidence || 0` is the identity on the
numeric confidences modelled here.) -/
noncomputable def insertByConf (r : Detection) : List Detection → List Detection
  | [] => [r]
  | e :: rest => if e.confidence ≤ r.confidence then r :: e :: rest else e :: insertByConf r rest

/-- The contents of the `rectangles` array after the in-place sort in
`GeometryUtils.filterOverlappingRectangles` (utils.js:213). -/
noncomputable def sortByConfDesc : List Detection → List Detection
  | [] => []
  | r :: rest => insertByConf r (sortByConfDesc rest)

/-- The greedy acceptance loop of `filterOverlappingRectangles`
(utils.js:215-229): accept `r` unless it overlaps an already accepted
rectangle by more than the threshold. -/
def greedyFilter (threshold : ℚ) : List Detection → List Detection → List Detection
  | acc, [] => acc
  | acc, r :: rest =>
    if acc.any (fun e => decide (threshold < calculateOverlap r e)) then
      greedyFilter threshold acc rest
    else
      greedyFilter threshold (acc ++ [r]) rest

/-- `GeometryUtils.filterOverlappingRectangles` (utils.js:209).  The first
component is the post-call contents of the caller's array (the source sorts
it in place); the second component is the returned filtered list. -/
noncomputable def filterOverlappingRectangles (rects : List Detection) (threshold : ℚ) :
    List Detection × List Detection :=
  let sorted := sortByConfDesc rects
  (sorted, greedyFilter threshold [] sorted)

/-! ### Order and overlap invariants of the resolver -/

/-- The list is descending in confidence (the order produced by the sort). -/
abbrev ConfSorted (l : List Detection) : Prop :=
  l.Pairwise (fun a b => b.confidence ≤ a.confidence)

/-- No later element overlaps an earlier one by more than the threshold. -/
abbrev NoBigOverlap (t : ℚ) (l : List Detection) : Prop :=
  l.Pairwise (fun a b => ¬ t < calculateOverlap b a)

theorem insertByConf_perm (r : Detection) (l : List Detection) :
    (insertByConf r l).Perm (r :: l) := by
  induction l with
  | nil => simp [insertByConf]
  | cons e rest ih =>
    by_cases h : e.confidence ≤ r.confidence
    · simp [insertByConf, h]
    · simp only [insertByConf, if_neg h]
      exact (ih.cons e).trans (List.Perm.swap r e rest)

theorem sortByConfDesc_perm (l : List Detection) : (sortByConfDesc l).Perm l := by
  induction l with
  | nil => simp [sortByConfDesc]
  | cons r rest ih =>
    exact (insertByConf_perm r (sortByConfDesc rest)).trans (ih.cons r)

theorem insertByConf_sorted (r : Detection) (l : List Detection) (h : ConfSorted l) :
    ConfSorted (insertByConf r l) := by
  induction l with
  | nil => simp [insertByConf, ConfSorted]
  | cons e rest ih =>
    rcases List.pairwise_cons.mp h with ⟨he, hrest⟩
    by_cases hc : e.confidence ≤ r.confidence
    · simp only [insertByConf, if_pos hc]
      refine List.pairwise_cons.mpr ⟨?_, h⟩
      intro b hb
      rcases List.mem_cons.mp hb with rfl | hb
      · exact hc
      · exact le_trans (he b hb) hc
    · simp only [insertByConf, if_neg hc]
      refine List.pairwise_cons.mpr ⟨?_, ih hrest⟩
      intro b hb
      rcases List.mem_cons.mp ((insertByConf_perm r rest).mem_iff.mp hb) with rfl | hb'
      · exact (not_le.mp hc).le
      · exact he b hb'

theorem sortByConfDesc_sorted (l : List Detection) : ConfSorted (sortByConfDesc l) := by
  induction l with
  | nil => simp [sortByConfDesc, ConfSorted]
  | cons r rest ih => exact insertByConf_sorted r (sortByConfDesc rest) ih

theorem sortByConfDesc_eq_self (l : List Detection) (h : ConfSorted l) :
    sortByConfDesc l = l := by
  induction l with
  | nil => rfl
  | cons r rest ih =>
    have hrest := (List.pairwise_cons.mp h).2
    show insertByConf r (sortByConfDesc rest) = r :: rest
    rw [ih hrest]
    cases rest with
    | nil => rfl
    | cons e t =>
      have hc : e.confidence ≤ r.confidence :=
        (List.pairwise_cons.mp h).1 e (by simp)
      simp [insertByConf, hc]

theorem greedyFilter_shape (t : ℚ) :
    ∀ (l acc : List Detection),
      ∃ s, greedyFilter t acc l = acc ++ s ∧ s.Sublist l := by
  intro l
  induction l with
  | nil => intro acc; exact ⟨[], by simp [greedyFilter]⟩
  | cons r rest ih =>
    intro acc
    cases h : (acc.any fun e => decide (t < calculateOverlap r e)) with
    | true =>
      rcases ih acc with ⟨s, hs, hsub⟩
      exact ⟨s, by simp [greedyFilter, h, hs], hsub.cons r⟩
    | false =>
      rcases ih (acc ++ [r]) with ⟨s, hs, hsub⟩
      refine ⟨r :: s, ?_, hsub.cons₂ r⟩
      simp [greedyFilter, h, hs]

theorem greedyFilter_noBigOverlap (t : ℚ) :
    ∀ (l acc : List Detection),
      NoBigOverlap t acc → NoBigOverlap t (greedyFilter t acc l) := by
  intro l
  induction l with
  | nil => intro acc h; simpa [greedyFilter] using h
  | cons r rest ih =>
    intro acc hacc
    cases h : (acc.any fun e => decide (t < calculateOverlap r e)) with
    | true => simpa [greedyFilter, h] using ih acc hacc
    | false =>
      have hnot : ∀ e ∈ acc, ¬ t < calculateOverlap r e := by
        intro e he
        have h' := List.any_eq_false.mp h e he
        simpa using h'
      have hacc' : NoBigOverlap t (acc ++ [r]) := by
        refine List.pairwise_append.mpr ⟨hacc, by simp, ?_⟩
        intro a ha b hb
        rcases List.mem_singleton.mp hb with rfl
        exact hnot a ha
      simpa [greedyFilter, h] using ih (acc ++ [r]) hacc'

theorem greedyFilter_fixed (t : ℚ) :
    ∀ (l acc : List Detection),
      (∀ r ∈ l, ∀ e ∈ acc, ¬ t < calculateOverlap r e) → NoBigOverlap t l →
      greedyFilter t acc l = acc ++ l := by
  intro l
  induction l with
  | nil => intro acc _ _; simp [greedyFilter]
  | cons r rest ih =>
    intro acc hacc hl
    have h : (acc.any fun e => decide (t < calculateOverlap r e)) = false := by
      rw [List.any_eq_false]
      intro e he
      simpa using hacc r (by simp) e he
    have hrec := ih (acc ++ [r]) ?_ (List.pairwise_cons.mp hl).2
    · simp [greedyFilter, h, hrec]
    · intro r' hr' e he
      rcases List.mem_append.mp he with he' | he'
      · exact hacc r' (by simp [hr']) e he'
      · rcases List.mem_singleton.mp he' with rfl
        exact (List.pairwise_cons.mp hl).1 r' hr'

/-- Two concrete candidates whose confidences are out of descending order. -/
noncomputable def rectLow : Detection :=
  ⟨"RECT-1", 0, 0, 10, 10, 100, 1, (2/5 : ℝ), (5, 5)⟩

/-- A concrete candidate with the higher confidence, listed second. -/
noncomputable def rectHigh : Detection :=
  ⟨"RECT-2", 50, 50, 10, 10, 100, 1, (9/10 : ℝ), (55, 55)⟩

/-- Claim C4 counterexample: `filterOverlappingRectangles` is not pure in its
input: on the list `[rectLow, rectHigh]` (confidences 0.4 then 0.9) the
in-place `Array.prototype.sort` leaves the caller's array reordered, so the
post-call contents differ from the original list. -/
theorem filterOverlapping_mutates_input :
    (filterOverlappingRectangles [rectLow, rectHigh] (3/10)).1 ≠ [rectLow, rectHigh] := by
  have hc : ¬ ((9/10 : ℝ) ≤ 2/5) := by norm_num
  have hs : (filterOverlappingRectangles [rectLow, rectHigh] (3/10)).1
      = [rectHigh, rectLow] := by
    simp [filterOverlappingRectangles, sortByConfDesc, insertByConf, rectLow, rectHigh, hc]
  rw [hs]
  intro hEq
  have h1 := congrArg (fun l => (l.headD default).x) hEq
  simp [rectLow, rectHigh] at h1

/-- Claim C4 amended: the resolver does mutate its input (the caller's array
is sorted in place, so its final ordering is the confidence-descending
order), but the multiset of elements is preserved: the post-call contents of
the input are a permutation of the original list. -/
theorem filterOverlapping_input_perm (rects : List Detection) (t : ℚ) :
    ((filterOverlappingRectangles rects t).1).Perm rects := by
  simpa [filterOverlappingRectangles] using sortByConfDesc_perm rects

/-- Claim C5: the overlap resolver is idempotent: applying
`filterOverlappingRectangles` to its own returned list with the same
threshold returns that list unchanged. -/
theorem filterOverlapping_idempotent (rects : List Detection) (t : ℚ) :
    (filterOverlappingRectangles ((filterOverlappingRectangles rects t).2) t).2
      = (filterOverlappingRectangles rects t).2 := by
  rcases greedyFilter_shape t (sortByConfDesc rects) [] with ⟨s, hs, hsub⟩
  have hout : (filterOverlappingRectangles rects t).2 = s := by
    simp [filterOverlappingRectangles, hs]
  have hsorted : ConfSorted s :=
    List.Pairwise.sublist hsub (sortByConfDesc_sorted rects)
  have hnb : NoBigOverlap t s := by
    have h := greedyFilter_noBigOverlap t (sortByConfDesc rects) [] (by simp)
    rw [hs] at h
    simpa using h
  rw [hout]
  simp only [filterOverlappingRectangles, sortByConfDesc_eq_self s hsorted]
  have h := greedyFilter_fixed t s [] (by intro r hr e he; simp at he) hnb
  simpa using h

/-! ### Image-processing stages (utils.js `ImageProcessor`) -/

/-- The RGBA input buffer handed to the pipeline: flat `data` plus
dimensions, mirroring canvas `ImageData`. -/
structure ImageData where
  data : List ℕ
  width : ℕ
  height : ℕ

/-- `ImageProcessor.toGrayscale` (utils.js:11):
`round(0.299 R + 0.587 G + 0.114 B)` per pixel, alpha ignored; the
`data.length / 4` iterations equal `width*height` for a well-formed canvas
buffer. -/
def toGrayscale (img : ImageData) : List ℕ :=
  (List.range (img.width * img.height)).map (fun i =>
    clampByte (jsRoundQ ((299/1000) * (img.data.getD (4*i) 0 : ℚ)
      + (587/1000) * (img.data.getD (4*i+1) 0 : ℚ)
      + (114/1000) * (img.data.getD (4*i+2) 0 : ℚ))))

/-- The interior scan order `(y, x)` of a two-level loop running
`y` from `offset` to `dim - offset - 1` (and likewise `x`). -/
def interiorPairs (w h offset : ℕ) : List (ℕ × ℕ) :=
  (List.range' offset (h - 2*offset)).flatMap
    (fun y => (List.range' offset (w - 2*offset)).map (fun x => (y, x)))

/-- `ImageProcessor.generateGaussianKernel` (utils.js:70): unnormalised
Gaussian weights `exp(-(i-radius)^2 / (2 sigma^2))` with `sigma = radius/3`,
then divided by their sum. -/
noncomputable def generateGaussianKernel (radius : ℕ) : List ℝ :=
  let sigma : ℝ := (radius : ℝ) / 3
  let raw := (List.range (2*radius + 1)).map
    (fun i : ℕ => Real.exp (-(((i : ℝ) - (radius : ℝ))^2) / (2 * sigma^2)))
  raw.map (fun k => k / raw.sum)

/-- One interior output pixel of `ImageProcessor.gaussianBlur`
(utils.js:44-58): the outer-product convolution sum divided by the weight
sum, rounded, and clamped by the `Uint8ClampedArray` store. -/
noncomputable def blurPixel (kernel : List ℝ) (gray : List ℕ) (w y x offset : ℕ) : ℕ :=
  let ksize := kernel.length
  let sum := ((List.range ksize).map (fun ky =>
      ((List.range ksize).map (fun kx =>
        (gray.getD ((y + ky - offset) * w + (x + kx - offset)) 0 : ℝ)
          * (kernel.getD ky 0 * kernel.getD kx 0))).sum)).sum
  let weightSum := ((List.range ksize).map (fun ky =>
      ((List.range ksize).map (fun kx =>
        kernel.getD ky 0 * kernel.getD kx 0)).sum)).sum
  clampByte (jsRoundR (sum / weightSum))

/-- `ImageProcessor.gaussianBlur` (utils.js:36): allocates a zero buffer of
`width*height` and writes only the interior `[offset, dim-offset)`
(`offset = floor(kernelSize/2) = radius`); border entries keep the zero of
the fresh `Uint8ClampedArray`. -/
noncomputable def gaussianBlur (gray : List ℕ) (w h radius : ℕ) : List ℕ :=
  let kernel := generateGaussianKernel radius
  let offset := kernel.length / 2
  (interiorPairs w h offset).foldl
    (fun buf yx => buf.set (yx.1 * w + yx.2) (blurPixel kernel gray w yx.1 yx.2 offset))
    (List.replicate (w * h) 0)

theorem length_foldl_set {α : Type} (idx val : α → ℕ) :
    ∀ (l : List α) (buf : List ℕ),
      (l.foldl (fun b a => b.set (idx a) (val a)) buf).length = buf.length := by
  intro l
  induction l with
  | nil => intro buf; rfl
  | cons a rest ih =>
    intro buf
    simpa [List.foldl] using (ih (buf.set (idx a) (val a))).trans (by simp)

theorem getD_foldl_set_of_ne {α : Type} (idx val : α → ℕ) (j : ℕ) :
    ∀ (l : List α) (buf : List ℕ), (∀ a ∈ l, idx a ≠ j) →
      (l.foldl (fun b a => b.set (idx a) (val a)) buf).getD j 0 = buf.getD j 0 := by
  intro l
  induction l with
  | nil => intro buf _; rfl
  | cons a rest ih =>
    intro buf hne
    have h1 : (buf.set (idx a) (val a)).getD j 0 = buf.getD j 0 := by
      simp [List.getD, List.getElem?_set_ne (hne a (by simp))]
    simpa [List.foldl] using (ih (buf.set (idx a) (val a)) (fun b hb => hne b (by simp [hb]))).trans h1

theorem flat_index_inj (w x y x0 y0 : ℕ) (hx : x < w) (hx0 : x0 < w)
    (h : y * w + x = y0 * w + x0) : y = y0 ∧ x = x0 := by
  rcases Nat.lt_trichotomy y y0 with hlt | heq | hgt
  · exfalso
    have h1 : y * w + w ≤ y0 * w := by
      calc y * w + w = (y + 1) * w := by ring
        _ ≤ y0 * w := Nat.mul_le_mul_right w hlt
    omega
  · subst heq
    omega
  · exfalso
    have h1 : y0 * w + w ≤ y * w := by
      calc y0 * w + w = (y0 + 1) * w := by ring
        _ ≤ y * w := Nat.mul_le_mul_right w hgt
    omega

theorem generateGaussianKernel_length (radius : ℕ) :
    (generateGaussianKernel radius).length = 2 * radius + 1 := by
  simp only [generateGaussianKernel, List.length_map, List.length_range]

theorem getD_replicate_zero (n i : ℕ) : (List.replicate n (0:ℕ)).getD i 0 = 0 := by
  rcases lt_or_ge i n with hlt | hge
  · simp [List.getD, List.getElem?_replicate, hlt]
  · simp [List.getD, List.getElem?_eq_none (by simpa using hge : (List.replicate n (0:ℕ)).length ≤ i)]

theorem interiorPairs_mem (w h offset : ℕ) (p : ℕ × ℕ)
    (hp : p ∈ interiorPairs w h offset) :
    offset ≤ p.1 ∧ p.1 < offset + (h - 2*offset)
      ∧ offset ≤ p.2 ∧ p.2 < offset + (w - 2*offset) := by
  simp only [interiorPairs, List.mem_flatMap, List.mem_map, List.mem_range'] at hp
  rcases hp with ⟨y, ⟨hy1, hy2⟩, x, ⟨hx1, hx2⟩, rfl⟩
  omega

/-- Core fact behind claim C1: the blur output has logical size `w*h` and
every pixel outside the interior `[radius, dim-radius)` in either
coordinate is `0` (the zero-initialised buffer is never written there). -/
theorem gaussianBlur_border_aux (gray : List ℕ) (w h radius x y : ℕ)
    (hx : x < w)
    (hborder : x < radius ∨ y < radius ∨ w ≤ x + radius ∨ h ≤ y + radius) :
    (gaussianBlur gray w h radius).getD (y * w + x) 0 = 0 := by
  have hoff : (generateGaussianKernel radius).length / 2 = radius := by
    rw [generateGaussianKernel_length]; omega
  simp only [gaussianBlur]
  rw [hoff]
  rw [getD_foldl_set_of_ne (fun yx => yx.1 * w + yx.2)
    (fun yx => blurPixel (generateGaussianKernel radius) gray w yx.1 yx.2 radius)
    (y * w + x) (interiorPairs w h radius) (List.replicate (w*h) 0) ?_]
  · exact getD_replicate_zero (w*h) (y*w+x)
  · intro a ha hEq
    have hbounds := interiorPairs_mem w h radius a ha
    have hxa : a.2 < w := by omega
    rcases flat_index_inj w a.2 a.1 x y hxa hx hEq with ⟨hy', hx'⟩
    omega

/-- Claim C1 amended: for every grayscale buffer and radius, the Gaussian
blur output has logical size `width*height`, but each border pixel of width
`radius` is `0` (the freshly allocated zero buffer is never written at the
border) — it is not a copy of the corresponding source pixel. -/
theorem gaussianBlur_border_zero (gray : List ℕ) (w h radius x y : ℕ)
    (hx : x < w) (_hy : y < h)
    (hborder : x < radius ∨ y < radius ∨ w ≤ x + radius ∨ h ≤ y + radius) :
    (gaussianBlur gray w h radius).length = w * h
      ∧ (gaussianBlur gray w h radius).getD (y * w + x) 0 = 0 := by
  constructor
  · unfold gaussianBlur
    rw [length_foldl_set]
    simp
  · exact gaussianBlur_border_aux gray w h radius x y hx hborder

/-- Witness for `gaussianBlur_border_zero` at a concrete 4×3 buffer,
radius 1, border pixel (0,0). -/
theorem gaussianBlur_border_zero_witness :
    ((0:ℕ) < 4 ∧ (0:ℕ) < 3 ∧ (0:ℕ) < 1)
      ∧ ((gaussianBlur (List.replicate 12 7) 4 3 1).length = 12
        ∧ (gaussianBlur (List.replicate 12 7) 4 3 1).getD 0 0 = 0) := by
  refine ⟨⟨by decide, by decide, by decide⟩, ?_⟩
  have h := gaussianBlur_border_zero (List.replicate 12 7) 4 3 1 0 0
    (by decide) (by decide) (Or.inl (by decide))
  simpa using h

/-- Claim C1 counterexample: on the all-255 3×3 grayscale buffer with
radius 1, the blur's border pixel (0,0) is `0`, not the source value `255`:
the border is zeroed, not copied from the source. -/
theorem gaussianBlur_border_not_copied :
    (gaussianBlur (List.replicate 9 255) 3 3 1).getD 0 0
      ≠ (List.replicate 9 255).getD 0 0 := by
  have h0 : (gaussianBlur (List.replicate 9 255) 3 3 1).getD 0 0 = 0 :=
    gaussianBlur_border_aux (List.replicate 9 255) 3 3 1 0 0 (by decide) (Or.inl (by decide))
  rw [h0]
  decide

/-! ### Contour tracing (detector.js `findContours` / `traceContour`) -/

/-- One stack-based flood walk (`RectangleDetector.traceContour`,
detector.js:397).  The stack is a head-first list (the JS array pushes and
pops at its end, so the most recently pushed neighbour is examined first);
the `while (stack.length > 0 && contour.length < 1000)` loop receives
explicit fuel.  Each iteration pops one entry, and at most `1 + 8·w·h`
entries are ever pushed (eight per visited pixel plus the seed), so any fuel
of at least `1 + 9·w·h` makes the fuelled loop agree with the source loop. -/
def traceAux (edges : List ℕ) (w h : ℤ) :
    ℕ → List (ℤ × ℤ) → List ℕ → List (ℤ × ℤ) → List ℕ × List (ℤ × ℤ)
  | 0, _, visited, contour => (visited, contour)
  | _+1, [], visited, contour => (visited, contour)
  | fuel+1, (x, y) :: rest, visited, contour =>
    if 1000 ≤ contour.length then (visited, contour)
    else if x < 0 ∨ w ≤ x ∨ y < 0 ∨ h ≤ y then
      traceAux edges w h fuel rest visited contour
    else if visited.getD (y*w+x).toNat 0 ≠ 0 ∨ edges.getD (y*w+x).toNat 0 = 0 then
      traceAux edges w h fuel rest visited contour
    else
      traceAux edges w h fuel
        ([(x+1,y+1),(x,y+1),(x-1,y+1),(x+1,y),(x-1,y),(x+1,y-1),(x,y-1),(x-1,y-1)] ++ rest)
        (visited.set (y*w+x).toNat 1) (contour ++ [(x, y)])

/-- `RectangleDetector.traceContour` (detector.js:397): run the flood walk
from the seed, returning the updated visited buffer and the contour. -/
def traceContour (edges : List ℕ) (w h sx sy : ℤ) (visited : List ℕ) :
    List ℕ × List (ℤ × ℤ) :=
  traceAux edges w h (9 * (w*h).toNat + 1) [(sx, sy)] visited []

/-- One raster-scan step of `RectangleDetector.findContours`
(detector.js:373-381): skip non-edge or visited pixels, else trace and keep
the contour only when its length exceeds 10. -/
def findContoursStep (edges : List ℕ) (w h : ℤ)
    (st : List ℕ × List (List (ℤ × ℤ))) (yx : ℕ × ℕ) :
    List ℕ × List (List (ℤ × ℤ)) :=
  let x : ℤ := yx.2
  let y : ℤ := yx.1
  if edges.getD (y*w+x).toNat 0 = 0 ∨ st.1.getD (y*w+x).toNat 0 ≠ 0 then st
  else
    let vc := traceContour edges w h x y st.1
    if 10 < vc.2.length then (vc.1, st.2 ++ [vc.2]) else (vc.1, st.2)

/-- The same scan step with the length filter removed: every traced contour
is recorded.  Used to state which traced contours the filter keeps. -/
def findContoursAllStep (edges : List ℕ) (w h : ℤ)
    (st : List ℕ × List (List (ℤ × ℤ))) (yx : ℕ × ℕ) :
    List ℕ × List (List (ℤ × ℤ)) :=
  let x : ℤ := yx.2
  let y : ℤ := yx.1
  if edges.getD (y*w+x).toNat 0 = 0 ∨ st.1.getD (y*w+x).toNat 0 ≠ 0 then st
  else
    let vc := traceContour edges w h x y st.1
    (vc.1, st.2 ++ [vc.2])

/-- `RectangleDetector.findContours` (detector.js:369). -/
def findContours (edges : List ℕ) (w h : ℤ) : List (List (ℤ × ℤ)) :=
  ((interiorPairs w.toNat h.toNat 1).foldl (findContoursStep edges w h)
    (List.replicate (w*h).toNat 0, [])).2

/-- All contours traced by the scan of `findContours`, with no length
filter. -/
def findContoursAll (edges : List ℕ) (w h : ℤ) : List (List (ℤ × ℤ)) :=
  ((interiorPairs w.toNat h.toNat 1).foldl (findContoursAllStep edges w h)
    (List.replicate (w*h).toNat 0, [])).2

theorem findContoursAll_acc (edges : List ℕ) (w h : ℤ) :
    ∀ (seeds : List (ℕ × ℕ)) (v : List ℕ) (cs : List (List (ℤ × ℤ))),
      seeds.foldl (findContoursAllStep edges w h) (v, cs)
        = ((seeds.foldl (findContoursAllStep edges w h) (v, [])).1,
           cs ++ (seeds.foldl (findContoursAllStep edges w h) (v, [])).2) := by
  intro seeds
  induction seeds with
  | nil => intro v cs; simp
  | cons s rest ih =>
    intro v cs
    by_cases hskip : edges.getD ((s.1 : ℤ)*w+(s.2 : ℤ)).toNat 0 = 0
        ∨ v.getD ((s.1 : ℤ)*w+(s.2 : ℤ)).toNat 0 ≠ 0
    · simp only [List.foldl_cons, findContoursAllStep, if_pos hskip]
      exact ih v cs
    · simp only [List.foldl_cons, findContoursAllStep, if_neg hskip]
      rw [ih (traceContour edges w h s.2 s.1 v).1 (cs ++ [(traceContour edges w h s.2 s.1 v).2]),
          ih (traceContour edges w h s.2 s.1 v).1 ([] ++ [(traceContour edges w h s.2 s.1 v).2])]
      simp

theorem findContours_filter_loop (edges : List ℕ) (w h : ℤ) :
    ∀ (seeds : List (ℕ × ℕ)) (v : List ℕ) (cs : List (List (ℤ × ℤ))),
      seeds.foldl (findContoursStep edges w h) (v, cs)
        = ((seeds.foldl (findContoursAllStep edges w h) (v, [])).1,
           cs ++ ((seeds.foldl (findContoursAllStep edges w h) (v, [])).2).filter
             (fun c => decide (10 < c.length))) := by
  intro seeds
  induction seeds with
  | nil => intro v cs; simp
  | cons s rest ih =>
    intro v cs
    by_cases hskip : edges.getD ((s.1 : ℤ)*w+(s.2 : ℤ)).toNat 0 = 0
        ∨ v.getD ((s.1 : ℤ)*w+(s.2 : ℤ)).toNat 0 ≠ 0
    · simp only [List.foldl_cons, findContoursStep, findContoursAllStep, if_pos hskip]
      exact ih v cs
    · simp only [List.foldl_cons, findContoursStep, findContoursAllStep, if_neg hskip]
      rw [findContoursAll_acc edges w h rest (traceContour edges w h s.2 s.1 v).1
        ([] ++ [(traceContour edges w h s.2 s.1 v).2])]
      by_cases hlen : 10 < (traceContour edges w h s.2 s.1 v).2.length
      · simp only [if_pos hlen]
        rw [ih (traceContour edges w h s.2 s.1 v).1 (cs ++ [(traceContour edges w h s.2 s.1 v).2])]
        simp [List.filter_append, hlen]
      · simp only [if_neg hlen]
        rw [ih (traceContour edges w h s.2 s.1 v).1 cs]
        simp [List.filter_append, hlen]

/-- Claim C3 amended: the contour scan keeps exactly the traced contours of
length strictly greater than 10 (i.e. at least 11 points): a contour appears
in the output of `findContours` iff it is a traced contour and has length
greater than 10.  In particular a traced contour of length exactly 10 is
discarded. -/
theorem findContours_keeps_iff (edges : List ℕ) (w h : ℤ) (c : List (ℤ × ℤ)) :
    c ∈ findContours edges w h ↔ c ∈ findContoursAll edges w h ∧ 10 < c.length := by
  unfold findContours findContoursAll
  rw [findContours_filter_loop edges w h (interiorPairs w.toNat h.toNat 1)
    (List.replicate (w*h).toNat 0) []]
  simp [List.mem_filter]

/-- A 12×3 edge buffer whose single 8-connected edge component is a
10-pixel horizontal run at `y = 1`, `x = 1..10` (flat indices 13..22). -/
def edgesTenRun : List ℕ :=
  (List.range 36).map (fun i => if 13 ≤ i ∧ i ≤ 22 then 255 else 0)

set_option maxRecDepth 100000 in
/-- Claim C3 counterexample: on `edgesTenRun` the tracer walks one contour
of exactly 10 points (length ≥ 10), yet `findContours` returns the empty
list — the 10-point contour is discarded, contradicting the claim that
every traced contour of length ≥ 10 appears in the output. -/
theorem findContours_drops_length_ten :
    (findContoursAll edgesTenRun 12 3).map List.length = [10]
      ∧ findContours edgesTenRun 12 3 = [] := by
  constructor
  · decide
  · decide

/-! ### Rectangle validation (detector.js `validateRectangularShape`) -/

/-- JS `Math.min(...xs)` for a nonempty integer list. -/
def listMinZ : List ℤ → ℤ
  | [] => 0
  | a :: t => t.foldl min a

/-- JS `Math.max(...xs)` for a nonempty integer list. -/
def listMaxZ : List ℤ → ℤ
  | [] => 0
  | a :: t => t.foldl max a

/-- Euclidean distance between two integer points (`Math.sqrt(dx*dx+dy*dy)`). -/
noncomputable def pointDist (p q : ℤ × ℤ) : ℝ :=
  Real.sqrt ((((p.1 - q.1 : ℤ) : ℝ))^2 + (((p.2 - q.2 : ℤ) : ℝ))^2)

/-- `Math.min(...corners.map(corner => dist))` (detector.js:551-555). -/
noncomputable def cornerMinDist (p : ℤ × ℤ) (corners : List (ℤ × ℤ)) : ℝ :=
  match corners.map (fun c => pointDist p c) with
  | [] => 0
  | a :: t => t.foldl min a

/-- `minX` of the polygon's bounding box (detector.js:528). -/
def polyMinX (polygon : List (ℤ × ℤ)) : ℤ := listMinZ (polygon.map Prod.fst)

/-- `maxX` of the polygon's bounding box. -/
def polyMaxX (polygon : List (ℤ × ℤ)) : ℤ := listMaxZ (polygon.map Prod.fst)

/-- `minY` of the polygon's bounding box. -/
def polyMinY (polygon : List (ℤ × ℤ)) : ℤ := listMinZ (polygon.map Prod.snd)

/-- `maxY` of the polygon's bounding box. -/
def polyMaxY (polygon : List (ℤ × ℤ)) : ℤ := listMaxZ (polygon.map Prod.snd)

/-- `width = maxX - minX` (detector.js:533). -/
def polyWidth (polygon : List (ℤ × ℤ)) : ℤ := polyMaxX polygon - polyMinX polygon

/-- `height = maxY - minY`. -/
def polyHeight (polygon : List (ℤ × ℤ)) : ℤ := polyMaxY polygon - polyMinY polygon

/-- `area = width * height`. -/
def polyArea (polygon : List (ℤ × ℤ)) : ℤ := polyWidth polygon * polyHeight polygon

/-- The four ideal bounding-box corners (detector.js:544-547). -/
def polyCorners (polygon : List (ℤ × ℤ)) : List (ℤ × ℤ) :=
  [(polyMinX polygon, polyMinY polygon), (polyMaxX polygon, polyMinY polygon),
   (polyMaxX polygon, polyMaxY polygon), (polyMinX polygon, polyMaxY polygon)]

/-- `avgDistance` (detector.js:549-560): the per-vertex minimum corner
distances summed over the (exactly four) polygon vertices, divided by 4. -/
noncomputable def polyAvgCornerDistance (polygon : List (ℤ × ℤ)) : ℝ :=
  ((polygon.map (fun v => cornerMinDist v (polyCorners polygon))).sum) / 4

/-- `tolerance = Math.sqrt(area) * 0.1` (detector.js:561). -/
noncomputable def polyTolerance (polygon : List (ℤ × ℤ)) : ℝ :=
  Real.sqrt ((polyArea polygon : ℝ)) * (1/10)

/-- The raw rectangle object returned by a successful validation
(detector.js:564-571). -/
structure RectShape where
  x : ℤ
  y : ℤ
  width : ℤ
  height : ℤ
  area : ℤ
  confidence : ℝ

/-- `RectangleDetector.validateRectangularShape` (detector.js:520).  The
source computes `aspectRatio = max/min` with JS division (`Infinity` when
`min = 0`); the `ℚ` division used here differs from that only on polygons
with a degenerate box, which the final `avgDistance < tolerance` test
(`tolerance = 0` there) rejects just as the source's aspect test does, so
the returned value agrees with the source on every input. -/
noncomputable def validateRectangularShape (polygon : List (ℤ × ℤ))
    (minArea maxAspect : ℚ) : Option RectShape :=
  if polygon.length ≠ 4 then none
  else if (polyArea polygon : ℚ) < minArea then none
  else if maxAspect <
      ((max (polyWidth polygon) (polyHeight polygon) : ℤ) : ℚ)
        / ((min (polyWidth polygon) (polyHeight polygon) : ℤ) : ℚ) then none
  else if polyAvgCornerDistance polygon < polyTolerance polygon then
    some ⟨polyMinX polygon, polyMinY polygon, polyWidth polygon, polyHeight polygon,
      polyArea polygon,
      max (3/10) (1 - polyAvgCornerDistance polygon / polyTolerance polygon)⟩
  else none

theorem foldl_min_nonneg (l : List ℝ) :
    ∀ (a : ℝ), 0 ≤ a → (∀ x ∈ l, 0 ≤ x) → 0 ≤ l.foldl min a := by
  induction l with
  | nil => intro a ha _; exact ha
  | cons b t ih =>
    intro a ha hl
    exact ih (min a b) (le_min ha (hl b (by simp))) (fun x hx => hl x (by simp [hx]))

theorem foldl_min_le_init (l : List ℝ) : ∀ (a : ℝ), l.foldl min a ≤ a := by
  induction l with
  | nil => intro a; exact le_refl a
  | cons b t ih => intro a; exact (ih (min a b)).trans (min_le_left a b)

theorem foldl_min_le_mem (l : List ℝ) (x : ℝ) (hx : x ∈ l) :
    ∀ (a : ℝ), l.foldl min a ≤ x := by
  induction l with
  | nil => cases hx
  | cons b t ih =>
    intro a
    rcases List.mem_cons.mp hx with rfl | hx'
    · exact (foldl_min_le_init t (min a x)).trans (min_le_right a x)
    · exact ih hx' (min a b)

theorem pointDist_nonneg (p q : ℤ × ℤ) : 0 ≤ pointDist p q := Real.sqrt_nonneg _

theorem pointDist_self (p : ℤ × ℤ) : pointDist p p = 0 := by
  simp [pointDist]

theorem cornerMinDist_nonneg (p : ℤ × ℤ) (corners : List (ℤ × ℤ)) :
    0 ≤ cornerMinDist p corners := by
  cases corners with
  | nil => simp [cornerMinDist]
  | cons c t =>
    show 0 ≤ (t.map (fun c => pointDist p c)).foldl min (pointDist p c)
    exact foldl_min_nonneg _ _ (pointDist_nonneg p c)
      (by intro x hx; rcases List.mem_map.mp hx with ⟨q, _, rfl⟩; exact pointDist_nonneg p q)

theorem cornerMinDist_self_zero (p : ℤ × ℤ) (corners : List (ℤ × ℤ))
    (hp : p ∈ corners) : cornerMinDist p corners = 0 := by
  cases corners with
  | nil => cases hp
  | cons c t =>
    refine le_antisymm ?_ (cornerMinDist_nonneg p (c :: t))
    show (t.map (fun c => pointDist p c)).foldl min (pointDist p c) ≤ 0
    rcases List.mem_cons.mp hp with rfl | hp'
    · exact (foldl_min_le_init _ _).trans (le_of_eq (pointDist_self p))
    · have hmem : (0:ℝ) ∈ t.map (fun c => pointDist p c) := by
        rw [← pointDist_self p]
        exact List.mem_map.mpr ⟨p, hp', rfl⟩
      exact foldl_min_le_mem _ 0 hmem _

theorem polyAvgCornerDistance_nonneg (polygon : List (ℤ × ℤ)) :
    0 ≤ polyAvgCornerDistance polygon := by
  apply div_nonneg _ (by norm_num)
  apply List.sum_nonneg
  intro x hx
  rcases List.mem_map.mp hx with ⟨v, _, rfl⟩
  exact cornerMinDist_nonneg v _

theorem polyAvgCornerDistance_of_corners (polygon : List (ℤ × ℤ))
    (h : ∀ v ∈ polygon, v ∈ polyCorners polygon) :
    polyAvgCornerDistance polygon = 0 := by
  unfold polyAvgCornerDistance
  rw [List.sum_eq_zero, zero_div]
  intro x hx
  rcases List.mem_map.mp hx with ⟨v, hv, rfl⟩
  exact cornerMinDist_self_zero v _ (h v hv)

/-- Claim C6: for every polygon and parameter pair, any candidate returned
by `validateRectangularShape` satisfies `area ≥ minArea` and
`max(width,height)/min(width,height) ≤ maxAspectRatio`. -/
theorem validate_area_aspect (polygon : List (ℤ × ℤ)) (minArea maxAspect : ℚ)
    (r : RectShape) (h : validateRectangularShape polygon minArea maxAspect = some r) :
    minArea ≤ (r.area : ℚ)
      ∧ ((max r.width r.height : ℤ) : ℚ) / ((min r.width r.height : ℤ) : ℚ) ≤ maxAspect := by
  unfold validateRectangularShape at h
  split_ifs at h with h1 h2 h3 h4
  obtain rfl := Option.some.inj h
  exact ⟨not_lt.mp h2, not_lt.mp h3⟩

/-- Claim C7: every accepted candidate has confidence exactly
`max(0.3, 1 - avgDistance/tolerance)`, and that value lies in `[0.3, 1]`. -/
theorem validate_confidence (polygon : List (ℤ × ℤ)) (minArea maxAspect : ℚ)
    (r : RectShape) (h : validateRectangularShape polygon minArea maxAspect = some r) :
    r.confidence = max (3/10) (1 - polyAvgCornerDistance polygon / polyTolerance polygon)
      ∧ (3/10 : ℝ) ≤ r.confidence ∧ r.confidence ≤ 1 := by
  unfold validateRectangularShape at h
  split_ifs at h with h1 h2 h3 h4
  obtain rfl := Option.some.inj h
  refine ⟨rfl, le_max_left _ _, ?_⟩
  apply max_le (by norm_num)
  have havg := polyAvgCornerDistance_nonneg polygon
  have htol : 0 < polyTolerance polygon := lt_of_le_of_lt havg h4
  have : 0 ≤ polyAvgCornerDistance polygon / polyTolerance polygon :=
    div_nonneg havg htol.le
  linarith

/-- Concrete polygon for the C6 witness: an exact 30×15 rectangle. -/
def polyRect30x15 : List (ℤ × ℤ) := [(0,0),(30,0),(30,15),(0,15)]

/-- The candidate the validator returns on `polyRect30x15`. -/
noncomputable def rect30x15 : RectShape := ⟨0, 0, 30, 15, 450, 1⟩

theorem validate_eval_30x15 :
    validateRectangularShape polyRect30x15 100 5 = some rect30x15 := by
  have havg : polyAvgCornerDistance polyRect30x15 = 0 := by
    apply polyAvgCornerDistance_of_corners
    decide
  have htol : 0 < polyTolerance polyRect30x15 := by
    unfold polyTolerance
    rw [show polyArea polyRect30x15 = 450 from by decide]
    apply mul_pos _ (by norm_num)
    rw [Real.sqrt_pos]
    norm_num
  unfold validateRectangularShape
  rw [if_neg (by decide : ¬ polyRect30x15.length ≠ 4)]
  rw [if_neg (by decide : ¬ ((polyArea polyRect30x15 : ℚ) < 100))]
  rw [if_neg (by
    rw [show polyWidth polyRect30x15 = 30 from by decide,
        show polyHeight polyRect30x15 = 15 from by decide]
    norm_num)]
  rw [if_pos (by rw [havg]; exact htol)]
  refine congrArg some ?_
  rw [havg, zero_div, sub_zero, max_eq_right (by norm_num : (3/10:ℝ) ≤ 1)]
  rw [show polyMinX polyRect30x15 = 0 from by decide,
      show polyMinY polyRect30x15 = 0 from by decide,
      show polyWidth polyRect30x15 = 30 from by decide,
      show polyHeight polyRect30x15 = 15 from by decide,
      show polyArea polyRect30x15 = 450 from by decide]
  rfl

/-- Witness for `validate_area_aspect`: the validator accepts the exact
30×15 rectangle with `minArea = 100`, `maxAspectRatio = 5`, and the
accepted candidate satisfies both bounds. -/
theorem validate_area_aspect_witness :
    validateRectangularShape polyRect30x15 100 5 = some rect30x15
      ∧ ((100:ℚ) ≤ (rect30x15.area : ℚ)
        ∧ ((max rect30x15.width rect30x15.height : ℤ) : ℚ)
            / ((min rect30x15.width rect30x15.height : ℤ) : ℚ) ≤ 5) :=
  ⟨validate_eval_30x15,
   validate_area_aspect polyRect30x15 100 5 rect30x15 validate_eval_30x15⟩

/-- Concrete polygon for the C7 witness: an exact 20×10 rectangle at (5,5). -/
def polyRect20x10 : List (ℤ × ℤ) := [(5,5),(25,5),(25,15),(5,15)]

/-- The candidate the validator returns on `polyRect20x10`. -/
noncomputable def rect20x10 : RectShape := ⟨5, 5, 20, 10, 200, 1⟩

theorem validate_eval_20x10 :
    validateRectangularShape polyRect20x10 100 5 = some rect20x10 := by
  have havg : polyAvgCornerDistance polyRect20x10 = 0 := by
    apply polyAvgCornerDistance_of_corners
    decide
  have htol : 0 < polyTolerance polyRect20x10 := by
    unfold polyTolerance
    rw [show polyArea polyRect20x10 = 200 from by decide]
    apply mul_pos _ (by norm_num)
    rw [Real.sqrt_pos]
    norm_num
  unfold validateRectangularShape
  rw [if_neg (by decide : ¬ polyRect20x10.length ≠ 4)]
  rw [if_neg (by decide : ¬ ((polyArea polyRect20x10 : ℚ) < 100))]
  rw [if_neg (by
    rw [show polyWidth polyRect20x10 = 20 from by decide,
        show polyHeight polyRect20x10 = 10 from by decide]
    norm_num)]
  rw [if_pos (by rw [havg]; exact htol)]
  refine congrArg some ?_
  rw [havg, zero_div, sub_zero, max_eq_right (by norm_num : (3/10:ℝ) ≤ 1)]
  rw [show polyMinX polyRect20x10 = 5 from by decide,
      show polyMinY polyRect20x10 = 5 from by decide,
      show polyWidth polyRect20x10 = 20 from by decide,
      show polyHeight polyRect20x10 = 10 from by decide,
      show polyArea polyRect20x10 = 200 from by decide]
  rfl

/-- Witness for `validate_confidence`: on the accepted 20×10 rectangle the
confidence equals the formula and lies in `[0.3, 1]`. -/
theorem validate_confidence_witness :
    validateRectangularShape polyRect20x10 100 5 = some rect20x10
      ∧ (rect20x10.confidence
            = max (3/10) (1 - polyAvgCornerDistance polyRect20x10 / polyTolerance polyRect20x10)
        ∧ (3/10 : ℝ) ≤ rect20x10.confidence ∧ rect20x10.confidence ≤ 1) :=
  ⟨validate_eval_20x10,
   validate_confidence polyRect20x10 100 5 rect20x10 validate_eval_20x10⟩

/-! ### Polygon simplification (detector.js `approximatePolygon`) -/

/-- The squared point-to-segment distance of
`RectangleDetector.pointToLineDistance` (detector.js:462), computed in exact
arithmetic.  Every source operation before the final `Math.sqrt` (the dot
product, squared length, clamped projection parameter and foot point) is
rational, so exact `ℚ` arithmetic coincides with the idealised real
arithmetic of those steps; `pointToLineDistance` takes the square root. -/
def pointToLineDistSq (p ls le : ℤ × ℤ) : ℚ :=
  let px : ℚ := (p.1 : ℚ)
  let py : ℚ := (p.2 : ℚ)
  let x1 : ℚ := (ls.1 : ℚ)
  let y1 : ℚ := (ls.2 : ℚ)
  let x2 : ℚ := (le.1 : ℚ)
  let y2 : ℚ := (le.2 : ℚ)
  let A := px - x1
  let B := py - y1
  let C := x2 - x1
  let D := y2 - y1
  let dot := A * C + B * D
  let lenSq := C * C + D * D
  if lenSq = 0 then A * A + B * B
  else
    let param := dot / lenSq
    let xy :=
      if param < 0 then (x1, y1)
      else if 1 < param then (x2, y2)
      else (x1 + param * C, y1 + param * D)
    (px - xy.1) * (px - xy.1) + (py - xy.2) * (py - xy.2)

/-- `RectangleDetector.pointToLineDistance` (detector.js:462). -/
noncomputable def pointToLineDistance (p ls le : ℤ × ℤ) : ℝ :=
  Real.sqrt ((pointToLineDistSq p ls le : ℚ) : ℝ)

/-- `RectangleDetector.contourPerimeter` (detector.js:501): sum of the
consecutive point-to-point Euclidean distances (`0` for fewer than two
points, where the sum is empty). -/
noncomputable def contourPerimeter (contour : List (ℤ × ℤ)) : ℝ :=
  ((contour.zip contour.tail).map (fun pq => pointDist pq.2 pq.1)).sum

/-- The `maxDistance`/`maxIndex` scan of `approximatePolygon`
(detector.js:432-443): for `i = 1 .. length-2`, remember the distance and
index on strict improvement over the running maximum (initially `0, 0`). -/
noncomputable def maxDistState (c : List (ℤ × ℤ)) : ℝ × ℕ :=
  (List.range' 1 (c.length - 1 - 1)).foldl
    (fun md i =>
      let d := pointToLineDistance (c.getD i (0,0)) (c.getD 0 (0,0))
        (c.getD (c.length - 1) (0,0))
      if md.1 < d then (d, i) else md)
    (0, 0)

/-- Fuelled Douglas–Peucker recursion of `approximatePolygon`
(detector.js:428-453).  Whenever the split branch is taken with `ε ≥ 0` the
split index lies in `[1, length-2]`, so both slices are strictly shorter
than the contour and fuel `length` is sufficient
(`approxFuel_eq_canonical` below). -/
noncomputable def approximatePolygonFuel : ℕ → List (ℤ × ℤ) → ℝ → List (ℤ × ℤ)
  | 0, c, _ => c
  | fuel+1, c, eps =>
    if c.length < 3 then c
    else
      let md := maxDistState c
      if eps * contourPerimeter c < md.1 then
        (approximatePolygonFuel fuel (c.take (md.2 + 1)) eps).dropLast
          ++ approximatePolygonFuel fuel (c.drop md.2) eps
      else [c.getD 0 (0,0), c.getD (c.length - 1) (0,0)]

/-- `RectangleDetector.approximatePolygon` (detector.js:428). -/
noncomputable def approximatePolygon (c : List (ℤ × ℤ)) (eps : ℝ) : List (ℤ × ℤ) :=
  approximatePolygonFuel c.length c eps

/-- Spec-variant of the simplifier for the C2 comparison: following the
spec's words, the split threshold is `ε × perimeter(original contour)`,
computed once at the top level and reused unchanged at every recursion
level; the source instead recomputes `contourPerimeter` on the current
sub-contour at every level. -/
noncomputable def approximatePolygonSpecFuel : ℕ → List (ℤ × ℤ) → ℝ → List (ℤ × ℤ)
  | 0, c, _ => c
  | fuel+1, c, t =>
    if c.length < 3 then c
    else
      let md := maxDistState c
      if t < md.1 then
        (approximatePolygonSpecFuel fuel (c.take (md.2 + 1)) t).dropLast
          ++ approximatePolygonSpecFuel fuel (c.drop md.2) t
      else [c.getD 0 (0,0), c.getD (c.length - 1) (0,0)]

/-- Top level of the spec-variant: fix the threshold from the original
contour's perimeter. -/
noncomputable def approximatePolygonSpec (c : List (ℤ × ℤ)) (eps : ℝ) : List (ℤ × ℤ) :=
  approximatePolygonSpecFuel c.length c (eps * contourPerimeter c)

theorem approxFuel_small (fuel : ℕ) (c : List (ℤ × ℤ)) (eps : ℝ) (h : c.length < 3) :
    approximatePolygonFuel (fuel+1) c eps = c := by
  simp only [approximatePolygonFuel]
  rw [if_pos h]

theorem approxFuel_any_small (fuel : ℕ) (c : List (ℤ × ℤ)) (eps : ℝ) (h : c.length < 3) :
    approximatePolygonFuel fuel c eps = c := by
  cases fuel with
  | zero => rfl
  | succ fuel => exact approxFuel_small fuel c eps h

theorem approxFuel_split (fuel : ℕ) (c : List (ℤ × ℤ)) (eps : ℝ)
    (h3 : ¬ c.length < 3) (hc : eps * contourPerimeter c < (maxDistState c).1) :
    approximatePolygonFuel (fuel+1) c eps
      = (approximatePolygonFuel fuel (c.take ((maxDistState c).2 + 1)) eps).dropLast
        ++ approximatePolygonFuel fuel (c.drop (maxDistState c).2) eps := by
  simp only [approximatePolygonFuel]
  rw [if_neg h3, if_pos hc]

theorem approxFuel_collapse (fuel : ℕ) (c : List (ℤ × ℤ)) (eps : ℝ)
    (h3 : ¬ c.length < 3) (hc : ¬ eps * contourPerimeter c < (maxDistState c).1) :
    approximatePolygonFuel (fuel+1) c eps
      = [c.getD 0 (0,0), c.getD (c.length - 1) (0,0)] := by
  simp only [approximatePolygonFuel]
  rw [if_neg h3, if_neg hc]

theorem specFuel_small (fuel : ℕ) (c : List (ℤ × ℤ)) (t : ℝ) (h : c.length < 3) :
    approximatePolygonSpecFuel (fuel+1) c t = c := by
  simp only [approximatePolygonSpecFuel]
  rw [if_pos h]

theorem specFuel_split (fuel : ℕ) (c : List (ℤ × ℤ)) (t : ℝ)
    (h3 : ¬ c.length < 3) (hc : t < (maxDistState c).1) :
    approximatePolygonSpecFuel (fuel+1) c t
      = (approximatePolygonSpecFuel fuel (c.take ((maxDistState c).2 + 1)) t).dropLast
        ++ approximatePolygonSpecFuel fuel (c.drop (maxDistState c).2) t := by
  simp only [approximatePolygonSpecFuel]
  rw [if_neg h3, if_pos hc]

theorem specFuel_collapse (fuel : ℕ) (c : List (ℤ × ℤ)) (t : ℝ)
    (h3 : ¬ c.length < 3) (hc : ¬ t < (maxDistState c).1) :
    approximatePolygonSpecFuel (fuel+1) c t
      = [c.getD 0 (0,0), c.getD (c.length - 1) (0,0)] := by
  simp only [approximatePolygonSpecFuel]
  rw [if_neg h3, if_neg hc]

theorem foldl_maxstep_snd_le (f : ℕ → ℝ) (bound : ℕ) :
    ∀ (l : List ℕ) (st : ℝ × ℕ), st.2 ≤ bound → (∀ i ∈ l, i ≤ bound) →
      (l.foldl (fun md i => if md.1 < f i then (f i, i) else md) st).2 ≤ bound := by
  intro l
  induction l with
  | nil => intro st h _; exact h
  | cons i rest ih =>
    intro st hst hl
    by_cases h : st.1 < f i
    · simp only [List.foldl_cons, if_pos h]
      exact ih (f i, i) (hl i (by simp)) (fun j hj => hl j (by simp [hj]))
    · simp only [List.foldl_cons, if_neg h]
      exact ih st hst (fun j hj => hl j (by simp [hj]))

theorem foldl_maxstep_zero_snd (f : ℕ → ℝ) :
    ∀ (l : List ℕ) (st : ℝ × ℕ), (∀ i ∈ l, 1 ≤ i) → (st.2 = 0 → st.1 ≤ 0) →
      ((l.foldl (fun md i => if md.1 < f i then (f i, i) else md) st).2 = 0 →
        (l.foldl (fun md i => if md.1 < f i then (f i, i) else md) st).1 ≤ 0) := by
  intro l
  induction l with
  | nil => intro st _ h; exact h
  | cons i rest ih =>
    intro st hl hst
    by_cases h : st.1 < f i
    · simp only [List.foldl_cons, if_pos h]
      refine ih (f i, i) (fun j hj => hl j (by simp [hj])) ?_
      intro hzero
      have h1 : i = 0 := hzero
      exact absurd (hl i (by simp)) (by omega)
    · simp only [List.foldl_cons, if_neg h]
      exact ih st (fun j hj => hl j (by simp [hj])) hst

theorem maxDistState_idx_le (c : List (ℤ × ℤ)) (h3 : 3 ≤ c.length) :
    (maxDistState c).2 ≤ c.length - 2 := by
  unfold maxDistState
  apply foldl_maxstep_snd_le
  · exact Nat.zero_le _
  · intro i hi
    have := List.mem_range'.mp hi
    omega

theorem maxDistState_idx_pos (c : List (ℤ × ℤ)) (h : 0 < (maxDistState c).1) :
    1 ≤ (maxDistState c).2 := by
  by_contra hcon
  have hzero : (maxDistState c).2 = 0 := by omega
  have hle : (maxDistState c).1 ≤ 0 := by
    unfold maxDistState at hzero ⊢
    refine foldl_maxstep_zero_snd _ _ _ ?_ (fun _ => le_refl 0) hzero
    intro i hi
    have := List.mem_range'.mp hi
    omega
  exact absurd h (not_lt.mpr hle)

theorem contourPerimeter_nonneg (c : List (ℤ × ℤ)) : 0 ≤ contourPerimeter c := by
  apply List.sum_nonneg
  intro x hx
  rcases List.mem_map.mp hx with ⟨pq, _, rfl⟩
  exact pointDist_nonneg _ _

/-- Fuel independence: with `ε ≥ 0`, any fuel of at least `c.length`
computes the same simplification, so `approximatePolygon` (fuel `length`)
is the source's recursion. -/
theorem approxFuel_eq_canonical (eps : ℝ) (heps : 0 ≤ eps) :
    ∀ (n : ℕ) (c : List (ℤ × ℤ)), c.length ≤ n →
      ∀ (f : ℕ), c.length ≤ f →
        approximatePolygonFuel f c eps = approximatePolygon c eps := by
  intro n
  induction n with
  | zero =>
    intro c hc f _
    have h0 : c.length < 3 := by omega
    rw [approxFuel_any_small f c eps h0]
    unfold approximatePolygon
    rw [approxFuel_any_small c.length c eps h0]
  | succ n ih =>
    intro c hc f hf
    by_cases h3 : c.length < 3
    · rw [approxFuel_any_small f c eps h3]
      unfold approximatePolygon
      rw [approxFuel_any_small c.length c eps h3]
    · push_neg at h3
      obtain ⟨f', rfl⟩ : ∃ f', f = f' + 1 := ⟨f - 1, by omega⟩
      have hlen : ∃ l', c.length = l' + 1 := ⟨c.length - 1, by omega⟩
      obtain ⟨l', hl'⟩ := hlen
      by_cases hc' : eps * contourPerimeter c < (maxDistState c).1
      · have hpos : 0 < (maxDistState c).1 :=
          lt_of_le_of_lt (mul_nonneg heps (contourPerimeter_nonneg c)) hc'
        have hidx1 : 1 ≤ (maxDistState c).2 := maxDistState_idx_pos c hpos
        have hidx2 : (maxDistState c).2 ≤ c.length - 2 := maxDistState_idx_le c h3
        have htake : (c.take ((maxDistState c).2 + 1)).length ≤ c.length - 1 := by
          rw [List.length_take]
          omega
        have hdrop : (c.drop ((maxDistState c).2)).length ≤ c.length - 1 := by
          rw [List.length_drop]
          omega
        rw [approxFuel_split f' c eps (not_lt.mpr h3) hc']
        unfold approximatePolygon
        rw [hl', approxFuel_split l' c eps (not_lt.mpr h3) hc']
        rw [ih (c.take ((maxDistState c).2 + 1)) (by omega) f' (by omega),
            ih (c.drop ((maxDistState c).2)) (by omega) f' (by omega),
            ih (c.take ((maxDistState c).2 + 1)) (by omega) l' (by omega),
            ih (c.drop ((maxDistState c).2)) (by omega) l' (by omega)]
      · rw [approxFuel_collapse f' c eps (not_lt.mpr h3) hc']
        unfold approximatePolygon
        rw [hl', approxFuel_collapse l' c eps (not_lt.mpr h3) hc', hl']

/-- Claim C2 amended: at every level of the recursion the source's
split-versus-collapse decision compares the maximum perpendicular distance
against `ε × contourPerimeter` of the CURRENT sub-contour, recomputed at
each call — as this self-recursion equation shows — not against the
perimeter of the original top-level contour. -/
theorem approximatePolygon_current_perimeter (c : List (ℤ × ℤ)) (eps : ℝ)
    (h3 : 3 ≤ c.length) (heps : 0 ≤ eps) :
    approximatePolygon c eps =
      if eps * contourPerimeter c < (maxDistState c).1 then
        (approximatePolygon (c.take ((maxDistState c).2 + 1)) eps).dropLast
          ++ approximatePolygon (c.drop ((maxDistState c).2)) eps
      else [c.getD 0 (0,0), c.getD (c.length - 1) (0,0)] := by
  obtain ⟨l', hl'⟩ : ∃ l', c.length = l' + 1 := ⟨c.length - 1, by omega⟩
  by_cases hc' : eps * contourPerimeter c < (maxDistState c).1
  · rw [if_pos hc']
    have hpos : 0 < (maxDistState c).1 :=
      lt_of_le_of_lt (mul_nonneg heps (contourPerimeter_nonneg c)) hc'
    have hidx1 : 1 ≤ (maxDistState c).2 := maxDistState_idx_pos c hpos
    have hidx2 : (maxDistState c).2 ≤ c.length - 2 := maxDistState_idx_le c h3
    conv_lhs => rw [approximatePolygon, hl', approxFuel_split l' c eps (by omega) hc']
    rw [approxFuel_eq_canonical eps heps (c.take ((maxDistState c).2 + 1)).length
          (c.take ((maxDistState c).2 + 1)) (le_refl _) l' (by rw [List.length_take]; omega)]
    rw [approxFuel_eq_canonical eps heps (c.drop ((maxDistState c).2)).length
          (c.drop ((maxDistState c).2)) (le_refl _) l' (by rw [List.length_drop]; omega)]
  · rw [if_neg hc']
    conv_lhs => rw [approximatePolygon, hl', approxFuel_collapse l' c eps (by omega) hc']

/-- Concrete 3-point contour used by the C2 witness. -/
def ctrW : List (ℤ × ℤ) := [(0,0), (1,1), (2,0)]

/-- Witness for `approximatePolygon_current_perimeter` at `ctrW`,
`ε = 0.02`. -/
theorem approximatePolygon_current_perimeter_witness :
    (3 ≤ ctrW.length ∧ (0:ℝ) ≤ 2/100)
      ∧ approximatePolygon ctrW (2/100) =
        (if (2/100 : ℝ) * contourPerimeter ctrW < (maxDistState ctrW).1 then
          (approximatePolygon (ctrW.take ((maxDistState ctrW).2 + 1)) (2/100)).dropLast
            ++ approximatePolygon (ctrW.drop ((maxDistState ctrW).2)) (2/100)
        else [ctrW.getD 0 (0,0), ctrW.getD (ctrW.length - 1) (0,0)]) :=
  ⟨⟨by decide, by norm_num⟩,
    approximatePolygon_current_perimeter ctrW (2/100) (by decide) (by norm_num)⟩

theorem approxFuel_length_bounds (eps : ℝ) :
    ∀ (fuel : ℕ) (c : List (ℤ × ℤ)),
      (approximatePolygonFuel fuel c eps).length ≤ c.length
        ∧ (2 ≤ c.length → 2 ≤ (approximatePolygonFuel fuel c eps).length) := by
  intro fuel
  induction fuel with
  | zero => intro c; exact ⟨le_refl _, fun h => h⟩
  | succ fuel ih =>
    intro c
    by_cases h3 : c.length < 3
    · rw [approxFuel_small fuel c eps h3]
      exact ⟨le_refl _, fun h => h⟩
    · push_neg at h3
      by_cases hc : eps * contourPerimeter c < (maxDistState c).1
      · rw [approxFuel_split fuel c eps (not_lt.mpr h3) hc]
        have hidx2 : (maxDistState c).2 ≤ c.length - 2 := maxDistState_idx_le c h3
        have hL := ih (c.take ((maxDistState c).2 + 1))
        have hR := ih (c.drop ((maxDistState c).2))
        have hLt : (c.take ((maxDistState c).2 + 1)).length = (maxDistState c).2 + 1 := by
          rw [List.length_take]
          omega
        have hRt : (c.drop ((maxDistState c).2)).length = c.length - (maxDistState c).2 := by
          rw [List.length_drop]
        constructor
        · rw [List.length_append, List.length_dropLast]
          have := hL.1
          have := hR.1
          omega
        · intro _
          rw [List.length_append]
          have := hR.2 (by omega)
          omega
      · rw [approxFuel_collapse fuel c eps (not_lt.mpr h3) hc]
        exact ⟨by simp; omega, fun _ => by simp⟩

/-- Claim C8: for every contour and epsilon, the simplifier's output never
has more vertices than the input; an input of at least two points yields at
least two points; and a 2-point polygon is returned unchanged. -/
theorem approximatePolygon_count (c : List (ℤ × ℤ)) (eps : ℝ) :
    (approximatePolygon c eps).length ≤ c.length
      ∧ (2 ≤ c.length → 2 ≤ (approximatePolygon c eps).length)
      ∧ (c.length = 2 → approximatePolygon c eps = c) := by
  refine ⟨(approxFuel_length_bounds eps c.length c).1,
    (approxFuel_length_bounds eps c.length c).2, ?_⟩
  intro h2
  unfold approximatePolygon
  exact approxFuel_any_small c.length c eps (by omega)

/-- Witness for `approximatePolygon_count` at the 2-point contour
`[(0,0), (3,4)]`. -/
theorem approximatePolygon_count_witness :
    ((2:ℕ) ≤ ([((0:ℤ),(0:ℤ)), (3,4)] : List (ℤ × ℤ)).length
      ∧ ([((0:ℤ),(0:ℤ)), (3,4)] : List (ℤ × ℤ)).length = 2)
      ∧ (2 ≤ (approximatePolygon [((0:ℤ),(0:ℤ)), (3,4)] (2/100)).length
        ∧ approximatePolygon [((0:ℤ),(0:ℤ)), (3,4)] (2/100) = [((0:ℤ),(0:ℤ)), (3,4)]) :=
  ⟨⟨by decide, by decide⟩,
    (approximatePolygon_count [((0:ℤ),(0:ℤ)), (3,4)] (2/100)).2.1 (by decide),
    (approximatePolygon_count [((0:ℤ),(0:ℤ)), (3,4)] (2/100)).2.2 (by decide)⟩

theorem specFuel_any_small (fuel : ℕ) (c : List (ℤ × ℤ)) (t : ℝ) (h : c.length < 3) :
    approximatePolygonSpecFuel fuel c t = c := by
  cases fuel with
  | zero => rfl
  | succ fuel => exact specFuel_small fuel c t h

theorem pointDist_eval (p q : ℤ × ℤ) (d : ℝ) (hd : 0 ≤ d)
    (h : (((p.1 - q.1 : ℤ):ℝ))^2 + (((p.2 - q.2 : ℤ):ℝ))^2 = d^2) :
    pointDist p q = d := by
  unfold pointDist
  rw [h]
  exact Real.sqrt_sq hd

/-- The 5-point contour of the C2 counterexample: a long horizontal run, a
small triangular bump of height 4 at its right end, and step distances
184, 5, 5, 5 (perimeter 199). -/
def ctrC2 : List (ℤ × ℤ) := [(0,10),(184,10),(189,10),(192,14),(195,10)]

/-- The left slice `ctrC2.take 4` produced by the top-level split. -/
def ctrC2L : List (ℤ × ℤ) := [(0,10),(184,10),(189,10),(192,14)]

/-- The left slice `ctrC2L.take 3` produced by the second split. -/
def ctrC2LL : List (ℤ × ℤ) := [(0,10),(184,10),(189,10)]

theorem maxDistState_ctrC2 : maxDistState ctrC2 = (4, 3) := by
  have e1 : pointToLineDistance ((184:ℤ),(10:ℤ)) ((0:ℤ),(10:ℤ)) ((195:ℤ),(10:ℤ)) = 0 := by
    unfold pointToLineDistance
    rw [show pointToLineDistSq (184,10) (0,10) (195,10) = 0 from by norm_num [pointToLineDistSq]]
    norm_num
  have e2 : pointToLineDistance ((189:ℤ),(10:ℤ)) ((0:ℤ),(10:ℤ)) ((195:ℤ),(10:ℤ)) = 0 := by
    unfold pointToLineDistance
    rw [show pointToLineDistSq (189,10) (0,10) (195,10) = 0 from by norm_num [pointToLineDistSq]]
    norm_num
  have e3 : pointToLineDistance ((192:ℤ),(14:ℤ)) ((0:ℤ),(10:ℤ)) ((195:ℤ),(10:ℤ)) = 4 := by
    unfold pointToLineDistance
    rw [show pointToLineDistSq (192,14) (0,10) (195,10) = 16 from by norm_num [pointToLineDistSq]]
    rw [show (((16:ℚ):ℝ)) = (4:ℝ)^2 by norm_num]
    exact Real.sqrt_sq (by norm_num)
  unfold maxDistState
  rw [show ctrC2.length - 1 - 1 = 3 from rfl, show List.range' 1 3 = [1,2,3] from rfl]
  simp only [List.foldl_cons, List.foldl_nil]
  rw [show ctrC2.getD 1 (0,0) = (184,10) from rfl,
      show ctrC2.getD 2 (0,0) = (189,10) from rfl,
      show ctrC2.getD 3 (0,0) = (192,14) from rfl,
      show ctrC2.getD 0 (0,0) = (0,10) from rfl,
      show ctrC2.getD (ctrC2.length - 1) (0,0) = (195,10) from rfl]
  rw [e1, e2, e3]
  norm_num

theorem maxDistState_ctrC2L :
    maxDistState ctrC2L = (Real.sqrt ((35721/2305 : ℚ) : ℝ), 2) := by
  have e1 : pointToLineDistance ((184:ℤ),(10:ℤ)) ((0:ℤ),(10:ℤ)) ((192:ℤ),(14:ℤ))
      = Real.sqrt ((33856/2305 : ℚ) : ℝ) := by
    unfold pointToLineDistance
    rw [show pointToLineDistSq (184,10) (0,10) (192,14) = 33856/2305 from by
      norm_num [pointToLineDistSq]]
  have e2 : pointToLineDistance ((189:ℤ),(10:ℤ)) ((0:ℤ),(10:ℤ)) ((192:ℤ),(14:ℤ))
      = Real.sqrt ((35721/2305 : ℚ) : ℝ) := by
    unfold pointToLineDistance
    rw [show pointToLineDistSq (189,10) (0,10) (192,14) = 35721/2305 from by
      norm_num [pointToLineDistSq]]
  have hpos : (0:ℝ) < Real.sqrt ((33856/2305 : ℚ) : ℝ) := by
    apply Real.sqrt_pos.mpr
    push_cast
    norm_num
  have hlt : Real.sqrt ((33856/2305 : ℚ) : ℝ) < Real.sqrt ((35721/2305 : ℚ) : ℝ) := by
    apply Real.sqrt_lt_sqrt
    · push_cast; norm_num
    · push_cast; norm_num
  unfold maxDistState
  rw [show ctrC2L.length - 1 - 1 = 2 from rfl, show List.range' 1 2 = [1,2] from rfl]
  simp only [List.foldl_cons, List.foldl_nil]
  rw [show ctrC2L.getD 1 (0,0) = (184,10) from rfl,
      show ctrC2L.getD 2 (0,0) = (189,10) from rfl,
      show ctrC2L.getD 0 (0,0) = (0,10) from rfl,
      show ctrC2L.getD (ctrC2L.length - 1) (0,0) = (192,14) from rfl]
  rw [e1, e2]
  rw [if_pos hpos, if_pos hlt]

theorem maxDistState_ctrC2LL : maxDistState ctrC2LL = (0, 0) := by
  have e1 : pointToLineDistance ((184:ℤ),(10:ℤ)) ((0:ℤ),(10:ℤ)) ((189:ℤ),(10:ℤ)) = 0 := by
    unfold pointToLineDistance
    rw [show pointToLineDistSq (184,10) (0,10) (189,10) = 0 from by norm_num [pointToLineDistSq]]
    norm_num
  unfold maxDistState
  rw [show ctrC2LL.length - 1 - 1 = 1 from rfl, show List.range' 1 1 = [1] from rfl]
  simp only [List.foldl_cons, List.foldl_nil]
  rw [show ctrC2LL.getD 1 (0,0) = (184,10) from rfl,
      show ctrC2LL.getD 0 (0,0) = (0,10) from rfl,
      show ctrC2LL.getD (ctrC2LL.length - 1) (0,0) = (189,10) from rfl]
  rw [e1]
  norm_num

theorem perim_ctrC2 : contourPerimeter ctrC2 = 199 := by
  unfold contourPerimeter
  rw [show (ctrC2.zip ctrC2.tail).map (fun pq => pointDist pq.2 pq.1)
      = [pointDist ((184:ℤ),(10:ℤ)) ((0:ℤ),(10:ℤ)), pointDist (189,10) (184,10),
         pointDist (192,14) (189,10), pointDist (195,10) (192,14)] from rfl]
  simp only [List.sum_cons, List.sum_nil]
  rw [pointDist_eval ((184:ℤ),(10:ℤ)) ((0:ℤ),(10:ℤ)) 184 (by norm_num) (by norm_num),
      pointDist_eval ((189:ℤ),(10:ℤ)) ((184:ℤ),(10:ℤ)) 5 (by norm_num) (by norm_num),
      pointDist_eval ((192:ℤ),(14:ℤ)) ((189:ℤ),(10:ℤ)) 5 (by norm_num) (by norm_num),
      pointDist_eval ((195:ℤ),(10:ℤ)) ((192:ℤ),(14:ℤ)) 5 (by norm_num) (by norm_num)]
  norm_num

theorem perim_ctrC2L : contourPerimeter ctrC2L = 194 := by
  unfold contourPerimeter
  rw [show (ctrC2L.zip ctrC2L.tail).map (fun pq => pointDist pq.2 pq.1)
      = [pointDist ((184:ℤ),(10:ℤ)) ((0:ℤ),(10:ℤ)), pointDist (189,10) (184,10),
         pointDist (192,14) (189,10)] from rfl]
  simp only [List.sum_cons, List.sum_nil]
  rw [pointDist_eval ((184:ℤ),(10:ℤ)) ((0:ℤ),(10:ℤ)) 184 (by norm_num) (by norm_num),
      pointDist_eval ((189:ℤ),(10:ℤ)) ((184:ℤ),(10:ℤ)) 5 (by norm_num) (by norm_num),
      pointDist_eval ((192:ℤ),(14:ℤ)) ((189:ℤ),(10:ℤ)) 5 (by norm_num) (by norm_num)]
  norm_num

theorem perim_ctrC2LL : contourPerimeter ctrC2LL = 189 := by
  unfold contourPerimeter
  rw [show (ctrC2LL.zip ctrC2LL.tail).map (fun pq => pointDist pq.2 pq.1)
      = [pointDist ((184:ℤ),(10:ℤ)) ((0:ℤ),(10:ℤ)), pointDist (189,10) (184,10)] from rfl]
  simp only [List.sum_cons, List.sum_nil]
  rw [pointDist_eval ((184:ℤ),(10:ℤ)) ((0:ℤ),(10:ℤ)) 184 (by norm_num) (by norm_num),
      pointDist_eval ((189:ℤ),(10:ℤ)) ((184:ℤ),(10:ℤ)) 5 (by norm_num) (by norm_num)]
  norm_num

theorem approx_code_ctrC2 :
    approximatePolygon ctrC2 (2/100)
      = [((0:ℤ),(10:ℤ)), (189,10), (192,14), (195,10)] := by
  have hcond1 : (2/100:ℝ) * contourPerimeter ctrC2 < (maxDistState ctrC2).1 := by
    rw [perim_ctrC2, maxDistState_ctrC2]
    norm_num
  have hcond2 : (2/100:ℝ) * contourPerimeter ctrC2L < (maxDistState ctrC2L).1 := by
    rw [perim_ctrC2L, maxDistState_ctrC2L]
    show (2/100:ℝ) * 194 < Real.sqrt ((35721/2305 : ℚ) : ℝ)
    rw [show ((35721/2305 : ℚ) : ℝ) = 35721/2305 by push_cast; ring]
    rw [show (2/100:ℝ) * 194 = 97/25 by norm_num]
    rw [Real.lt_sqrt (by norm_num)]
    norm_num
  have hcond3 : ¬ ((2/100:ℝ) * contourPerimeter ctrC2LL < (maxDistState ctrC2LL).1) := by
    rw [perim_ctrC2LL, maxDistState_ctrC2LL]
    norm_num
  unfold approximatePolygon
  rw [show ctrC2.length = 5 from rfl, show (5:ℕ) = 4+1 from rfl]
  rw [approxFuel_split 4 ctrC2 (2/100) (by decide) hcond1]
  rw [maxDistState_ctrC2]
  rw [show ctrC2.take (((4:ℝ), 3).2 + 1) = ctrC2L from rfl]
  rw [show ctrC2.drop ((4:ℝ), 3).2 = [((192:ℤ),(14:ℤ)), (195,10)] from rfl]
  rw [approxFuel_any_small 4 [((192:ℤ),(14:ℤ)), (195,10)] (2/100) (by decide)]
  rw [show (4:ℕ) = 3+1 from rfl]
  rw [approxFuel_split 3 ctrC2L (2/100) (by decide) hcond2]
  rw [maxDistState_ctrC2L]
  rw [show ctrC2L.take ((Real.sqrt ((35721/2305 : ℚ) : ℝ), 2).2 + 1) = ctrC2LL from rfl]
  rw [show ctrC2L.drop (Real.sqrt ((35721/2305 : ℚ) : ℝ), 2).2
      = [((189:ℤ),(10:ℤ)), (192,14)] from rfl]
  rw [approxFuel_any_small 3 [((189:ℤ),(10:ℤ)), (192,14)] (2/100) (by decide)]
  rw [show (3:ℕ) = 2+1 from rfl]
  rw [approxFuel_collapse 2 ctrC2LL (2/100) (by decide) hcond3]
  decide

theorem approx_spec_ctrC2 :
    approximatePolygonSpec ctrC2 (2/100) = [((0:ℤ),(10:ℤ)), (192,14), (195,10)] := by
  have hcond1 : ((199:ℝ)/50) < (maxDistState ctrC2).1 := by
    rw [maxDistState_ctrC2]
    norm_num
  have hcond2 : ¬ (((199:ℝ)/50) < (maxDistState ctrC2L).1) := by
    rw [maxDistState_ctrC2L]
    show ¬ (((199:ℝ)/50) < Real.sqrt ((35721/2305 : ℚ) : ℝ))
    rw [show ((35721/2305 : ℚ) : ℝ) = 35721/2305 by push_cast; ring]
    rw [Real.lt_sqrt (by norm_num)]
    norm_num
  unfold approximatePolygonSpec
  rw [perim_ctrC2]
  rw [show (2/100:ℝ) * 199 = 199/50 by norm_num]
  rw [show ctrC2.length = 5 from rfl, show (5:ℕ) = 4+1 from rfl]
  rw [specFuel_split 4 ctrC2 (199/50) (by decide) hcond1]
  rw [maxDistState_ctrC2]
  rw [show ctrC2.take (((4:ℝ), 3).2 + 1) = ctrC2L from rfl]
  rw [show ctrC2.drop ((4:ℝ), 3).2 = [((192:ℤ),(14:ℤ)), (195,10)] from rfl]
  rw [specFuel_any_small 4 [((192:ℤ),(14:ℤ)), (195,10)] (199/50) (by decide)]
  rw [show (4:ℕ) = 3+1 from rfl]
  rw [specFuel_collapse 3 ctrC2L (199/50) (by decide) hcond2]
  decide

/-- Claim C2 counterexample: on the concrete 5-point contour `ctrC2` with
`ε = 0.02`, the source recursion — whose threshold is `ε` times the
perimeter of the current sub-contour — returns a 4-point polygon, while the
recursion that fixes the threshold at `ε × perimeter(original contour)` (the
spec's description) returns a 3-point polygon; the two disagree. -/
theorem approximatePolygon_ne_spec :
    approximatePolygon ctrC2 (2/100) ≠ approximatePolygonSpec ctrC2 (2/100) := by
  rw [approx_code_ctrC2, approx_spec_ctrC2]
  decide

/-! ### Edge extraction and the detection pipeline (detector.js) -/

/-- `ImageProcessor.simpleEdgeDetection` (utils.js:137): central-difference
gradient magnitude thresholding over the interior; the 1-pixel border of
the fresh output buffer stays 0. -/
noncomputable def simpleEdgeDetection (gray : List ℕ) (w h : ℕ) (threshold : ℚ) : List ℕ :=
  (interiorPairs w h 1).foldl
    (fun buf yx =>
      let gx : ℤ := (gray.getD (yx.1 * w + (yx.2 + 1)) 0 : ℤ)
        - (gray.getD (yx.1 * w + (yx.2 - 1)) 0 : ℤ)
      let gy : ℤ := (gray.getD ((yx.1 + 1) * w + yx.2) 0 : ℤ)
        - (gray.getD ((yx.1 - 1) * w + yx.2) 0 : ℤ)
      let magnitude := Real.sqrt (((gx * gx + gy * gy : ℤ) : ℝ))
      buf.set (yx.1 * w + yx.2) (if (threshold : ℝ) < magnitude then 255 else 0))
    (List.replicate (w * h) 0)

/-- `RectangleDetector.createRectangleObject` (detector.js:583).  The JS
`width/height` division is exact rational here; candidates produced by the
validator have positive height, where the two agree. -/
noncomputable def createRectangleObject (rect : RectShape) (index : ℕ) : Detection :=
  { id := "RECT-" ++ toString (index + 1)
    x := rect.x
    y := rect.y
    width := rect.width
    height := rect.height
    area := rect.area
    aspect := ((jsRoundQ (((rect.width : ℚ) / (rect.height : ℚ)) * 100) : ℤ) : ℚ) / 100
    confidence := rect.confidence
    center := (jsRoundQ ((rect.x : ℚ) + (rect.width : ℚ) / 2),
               jsRoundQ ((rect.y : ℚ) + (rect.height : ℚ) / 2)) }

/-- The contour loop of `RectangleDetector.findRectanglesFromEdges`
(detector.js:343-357): contours shorter than 20 points are skipped before
simplification and validation; accepted candidates are appended (indexed by
the current count); the loop breaks once 10 rectangles exist. -/
noncomputable def findRectsLoop (minArea maxAspect : ℚ) :
    List Detection → List (List (ℤ × ℤ)) → List Detection
  | acc, [] => acc
  | acc, c :: rest =>
    if c.length < 20 then findRectsLoop minArea maxAspect acc rest
    else
      let acc' :=
        match validateRectangularShape (approximatePolygon c (2/100)) minArea maxAspect with
        | some r => acc ++ [createRectangleObject r acc.length]
        | none => acc
      if 10 ≤ acc'.length then acc'
      else findRectsLoop minArea maxAspect acc' rest

/-- `RectangleDetector.findRectanglesFromEdges` (detector.js:334). -/
noncomputable def findRectanglesFromEdges (edges : List ℕ) (w h : ℤ)
    (minArea maxAspect : ℚ) : List Detection :=
  findRectsLoop minArea maxAspect [] (findContours edges w h)

/-- The `{sensitivity, minArea, aspectRatio}` object built by
`getDetectionParameters` (detector.js:245); the third field is named
`aspect` here. -/
structure DetectionParams where
  sensitivity : ℤ
  minArea : ℤ
  aspect : ℚ

/-- `ValidationUtils.validateDetectionParams`: range checks in field order,
returning the first violated field's message. -/
def validateDetectionParams : DetectionParams → Option String
  | ⟨sensitivity, minArea, aspect⟩ =>
    if sensitivity < 10 ∨ 300 < sensitivity then
      some "Sensitivity must be between 10 and 300"
    else if minArea < 100 ∨ 50000 < minArea then
      some "Minimum area must be between 100 and 50,000 pixels"
    else if aspect < 1 ∨ 20 < aspect then
      some "Aspect ratio must be between 1 and 20"
    else none

/-- `RectangleDetector.detectRectanglesInImage` (detector.js:278): the core
pipeline — grayscale, blur (radius 1), central-difference edges at the
sensitivity threshold, contour-based rectangle extraction, overlap
filtering at threshold 0.3, truncation to the top 10. -/
noncomputable def detectRectanglesInImage (sensitivity minArea : ℤ) (maxAspect : ℚ)
    (img : ImageData) : List Detection :=
  let gray := toGrayscale img
  let blurred := gaussianBlur gray img.width img.height 1
  let edges := simpleEdgeDetection blurred img.width img.height (sensitivity : ℚ)
  let rectangles := findRectanglesFromEdges edges (img.width : ℤ) (img.height : ℤ)
    (minArea : ℚ) maxAspect
  ((filterOverlappingRectangles rectangles (3/10)).2).take 10

/-- The validate-then-detect control flow of
`RectangleDetector.detectRectangles` (detector.js:200-217): parameters are
validated first, and a violation is surfaced to the caller before any pixel
processing; only valid parameters reach `detectRectanglesInImage`. -/
noncomputable def detectRectanglesChecked (p : DetectionParams) (img : ImageData) :
    Except String (List Detection) :=
  match validateDetectionParams p with
  | some err => Except.error err
  | none => Except.ok (detectRectanglesInImage p.sensitivity p.minArea p.aspect img)

/-- Claim C9: the domain `edgeSensitivity ∈ [10, 300]` is enforced: with the
other fields in range, sensitivity 9 is rejected — for every image the
checked entry point returns the validation error, before any pixel
processing — while sensitivity 10 and 300 pass validation. -/
theorem param_boundary (m : ℤ) (a : ℚ)
    (hm1 : 100 ≤ m) (hm2 : m ≤ 50000) (ha1 : 1 ≤ a) (ha2 : a ≤ 20) :
    (∀ img : ImageData, detectRectanglesChecked ⟨9, m, a⟩ img
        = Except.error "Sensitivity must be between 10 and 300")
      ∧ validateDetectionParams ⟨10, m, a⟩ = none
      ∧ validateDetectionParams ⟨300, m, a⟩ = none := by
  refine ⟨?_, ?_, ?_⟩
  · intro img
    have hval : validateDetectionParams ⟨9, m, a⟩
        = some "Sensitivity must be between 10 and 300" := by
      simp only [validateDetectionParams]
      rw [if_pos (Or.inl (by decide : (9:ℤ) < 10))]
    unfold detectRectanglesChecked
    rw [hval]
  · simp only [validateDetectionParams]
    rw [if_neg (by decide : ¬ ((10:ℤ) < 10 ∨ 300 < (10:ℤ))), if_neg (by omega),
        if_neg (by push_neg; exact ⟨ha1, ha2⟩)]
  · simp only [validateDetectionParams]
    rw [if_neg (by decide : ¬ ((300:ℤ) < 10 ∨ 300 < (300:ℤ))), if_neg (by omega),
        if_neg (by push_neg; exact ⟨ha1, ha2⟩)]

/-- Witness for `param_boundary` at `minArea = 1000`, `aspectRatio = 5`,
with the empty image. -/
theorem param_boundary_witness :
    ((100:ℤ) ≤ 1000 ∧ (1000:ℤ) ≤ 50000 ∧ (1:ℚ) ≤ 5 ∧ (5:ℚ) ≤ 20)
      ∧ (detectRectanglesChecked ⟨9, 1000, 5⟩ ⟨[], 0, 0⟩
          = Except.error "Sensitivity must be between 10 and 300"
        ∧ validateDetectionParams ⟨10, 1000, 5⟩ = none
        ∧ validateDetectionParams ⟨300, 1000, 5⟩ = none) :=
  ⟨⟨by decide, by decide, by norm_num, by norm_num⟩,
    (param_boundary 1000 5 (by decide) (by decide) (by norm_num) (by norm_num)).1 ⟨[], 0, 0⟩,
    (param_boundary 1000 5 (by decide) (by decide) (by norm_num) (by norm_num)).2.1,
    (param_boundary 1000 5 (by decide) (by decide) (by norm_num) (by norm_num)).2.2⟩

/-- Claim C10: in the detection stage every contour of fewer than 20 points
is skipped before simplification and validation — processing it leaves the
accumulated rectangle list unchanged — so the contours of 11 to 19 points
that the tracer keeps never yield a Detection. -/
theorem findRectsLoop_skips_short (minArea maxAspect : ℚ) (acc : List Detection)
    (c : List (ℤ × ℤ)) (rest : List (List (ℤ × ℤ))) (h : c.length < 20) :
    findRectsLoop minArea maxAspect acc (c :: rest)
      = findRectsLoop minArea maxAspect acc rest := by
  simp only [findRectsLoop]
  rw [if_pos h]

/-- Witness for `findRectsLoop_skips_short` on an 11-point contour (kept by
the tracer, skipped by the rectangle stage). -/
theorem findRectsLoop_skips_short_witness :
    (List.replicate 11 ((0:ℤ),(0:ℤ))).length < 20
      ∧ findRectsLoop 100 5 [] [List.replicate 11 ((0:ℤ),(0:ℤ))]
        = findRectsLoop 100 5 [] [] :=
  ⟨by decide,
    findRectsLoop_skips_short 100 5 [] (List.replicate 11 ((0:ℤ),(0:ℤ))) [] (by decide)⟩
